import Mathlib

/-!
Shallow embedding of the blob-arena simulation core (GameCanvas component and
GameContext provider) for checking the natural-language specification.

Modelling conventions:
* JavaScript numbers are modelled as exact rationals (`ℚ`); every claim checked
  here concerns comparisons, clamps and counts that are exact in the source.
* Euclidean-distance comparisons `dist < t` / `dist > t` from the source are
  embedded in squared form (`distLt` / `distGt`), which is equivalent for the
  nonnegative distances the source computes.
* Randomly generated values (spawn positions, fresh food batches, fresh bots)
  are passed in as explicit parameters, since the simulation consumes them as
  opaque inputs.
-/

/-- Team tag from the Blob interface: `team?: 'red' | 'blue'`. -/
inductive Team where
  | red
  | blue
deriving DecidableEq

/-- Game mode enum from GameContext: `'classic' | 'timeAttack' | 'battleRoyale' | 'team'`. -/
inductive GameMode where
  | classic
  | timeAttack
  | battleRoyale
  | team
deriving DecidableEq

/-- The Blob interface of GameCanvas (fields read by the simulation logic:
identity, position, size, wander velocity, team; colour and display name are
presentation-only and carry no logic). -/
structure Blob where
  id : String
  x : ℚ
  y : ℚ
  size : ℚ
  vx : Option ℚ := none
  vy : Option ℚ := none
  team : Option Team := none
deriving DecidableEq

/-- World width: `const CANVAS_WIDTH = 1000`. -/
def CANVAS_WIDTH : ℚ := 1000

/-- World height: `const CANVAS_HEIGHT = 1500`. -/
def CANVAS_HEIGHT : ℚ := 1500

/-- Squared Euclidean distance; the source's `calculateDistance` is its square
root, and all uses in the simulation are comparisons against thresholds. -/
def dist2 (x1 y1 x2 y2 : ℚ) : ℚ := (x1 - x2) ^ 2 + (y1 - y2) ^ 2

/-- Embeds `calculateDistance(x1,y1,x2,y2) < t` (squared form; the distance is
nonnegative, so for `t > 0` the comparison is equivalent to `dist2 < t^2`, and
for `t ≤ 0` it is false). -/
abbrev distLt (x1 y1 x2 y2 t : ℚ) : Prop := 0 < t ∧ dist2 x1 y1 x2 y2 < t ^ 2

/-- Embeds `calculateDistance(x1,y1,x2,y2) > t` (squared form; for `t < 0` the
comparison is always true since distances are nonnegative). -/
abbrev distGt (x1 y1 x2 y2 t : ℚ) : Prop := t < 0 ∨ t ^ 2 < dist2 x1 y1 x2 y2

/-- Embeds `growPlayer` from GameContext.tsx (lines 307-309):
`setPlayerSize(prev => Math.max(5, prev + amount))`. Note the clamp is at 5,
not at the player's 20-unit spawn floor. -/
def growPlayer (prev amount : ℚ) : ℚ := max 5 (prev + amount)

/-- Embeds the idle-decay branch of `updateGame` (lines 242-249). Input is the
player size at tick start (context value and tick-local copy coincide there)
and whether 2000ms have elapsed since the last decay reset. Output is the pair
(new persisted context size via `growPlayer(-0.5)`, new tick-local
`newPlayerSize = Math.max(20, newPlayerSize - 0.5)`). -/
def idleDecay (s : ℚ) (elapsedOver2000 : Bool) : ℚ × ℚ :=
  if elapsedOver2000 = true ∧ s > 20 then (growPlayer s (-0.5), max 20 (s - 0.5))
  else (s, s)

/-- Embeds the battle-royale out-of-zone player damage of `updateGame`
(lines 556-566): if the player's distance from the world centre
`(CANVAS_WIDTH/2, CANVAS_HEIGHT/2)` exceeds `playAreaRadius`, the persisted
size is updated by `growPlayer(-0.5)` while the tick-local copy is clamped by
`Math.max(20, newPlayerSize - 0.5)`. Returns (persisted context size,
tick-local size). -/
def brPlayerDamage (px py radius ctxSize localSize : ℚ) : ℚ × ℚ :=
  if distGt px py (CANVAS_WIDTH / 2) (CANVAS_HEIGHT / 2) radius then
    (growPlayer ctxSize (-0.5), max 20 (localSize - 0.5))
  else (ctxSize, localSize)

/-- Embeds the battle-royale out-of-zone bot damage of `updateGame`
(lines 510-519): `bot.size = Math.max(5, bot.size - 1)` when the bot is
outside the safe zone. -/
def brBotDamage (bx bY radius size : ℚ) : ℚ :=
  if distGt bx bY (CANVAS_WIDTH / 2) (CANVAS_HEIGHT / 2) radius then max 5 (size - 1)
  else size

/-- Embeds one one-second shrink step of the battle-royale safe zone
(GameCanvas lines 105-110): `Math.max(minRadius, prev - shrinkRate)` with
`minRadius = 100`, `shrinkRate = 2`. The surrounding interval only fires while
the run is active, not over, and not paused, so steps are indexed by elapsed
active seconds. -/
def shrinkRadiusStep (r : ℚ) : ℚ := max 100 (r - 2)

/-- Initial battle-royale safe-zone radius (GameCanvas line 77):
`Math.min(CANVAS_WIDTH, CANVAS_HEIGHT) / 2`. -/
def initialPlayAreaRadius : ℚ := min CANVAS_WIDTH CANVAS_HEIGHT / 2

/-- The safe-zone radius after `n` active one-second shrink steps. -/
def radiusAfter : ℕ → ℚ
  | 0 => initialPlayAreaRadius
  | n + 1 => shrinkRadiusStep (radiusAfter n)

theorem radiusAfter_closed (n : ℕ) : radiusAfter n = max 100 (500 - 2 * (n : ℚ)) := by
  induction n with
  | zero =>
    simp [radiusAfter, initialPlayAreaRadius, CANVAS_WIDTH, CANVAS_HEIGHT]
    norm_num
  | succ n ih =>
    rw [radiusAfter, ih, shrinkRadiusStep]
    rcases le_total (500 - 2 * (n : ℚ)) 100 with h | h
    · rw [max_eq_left h, max_eq_left, max_eq_left]
      · push_cast
        linarith
      · norm_num
    · rw [max_eq_right h]
      push_cast
      rcases le_total (500 - (2 * (n : ℚ) + 2)) 100 with h2 | h2
      · rw [max_eq_left (by linarith), max_eq_left (by linarith)]
      · rw [max_eq_right (by linarith), max_eq_right (by linarith)]
        ring

/-- C9: In battle-royale mode the safe-zone radius starts at half the smaller
world dimension (500), decreases by exactly 2 per active one-second step until
the 100 floor (closed form `max 100 (500 - 2n)`), is monotonically
non-increasing, and never goes below 100. -/
theorem C9_battle_royale_radius (n : ℕ) :
    radiusAfter 0 = 500 ∧
    radiusAfter n = max 100 (500 - 2 * (n : ℚ)) ∧
    radiusAfter (n + 1) ≤ radiusAfter n ∧
    100 ≤ radiusAfter n := by
  refine ⟨?_, radiusAfter_closed n, ?_, ?_⟩
  · rw [radiusAfter_closed]
    norm_num
  · rw [radiusAfter_closed, radiusAfter_closed]
    push_cast
    rcases le_total (500 - 2 * (n : ℚ)) 100 with h | h
    · rw [max_eq_left h, max_eq_left (by linarith)]
    · rw [max_eq_right h]
      exact max_le (by linarith) (by linarith)
  · rw [radiusAfter_closed]
    exact le_max_left _ _

/-- C1: claim states the player's size is at least 20 after every tick, in
particular that battle-royale out-of-zone damage never takes it below the
20-unit floor. The code clamps only the tick-local copy at 20
(`Math.max(20, newPlayerSize - 0.5)`); the persisted size goes through
`growPlayer`, whose clamp is at 5. Evaluating the embedded battle-royale
damage step with the player at the world corner (outside a safe zone of
radius 100) and persisted size exactly 20: the persisted size after the tick
is 19.5 < 20, contradicting the invariant the code's own comment
("Don't shrink below minimum size") and local clamp intend. -/
theorem C1_player_floor_bug :
    (brPlayerDamage 0 0 100 20 20).1 = 19.5 ∧
    (brPlayerDamage 0 0 100 20 20).1 < 20 ∧
    (brPlayerDamage 0 0 100 20 20).2 = 20 ∧
    (idleDecay 20.3 true).1 = 19.8 ∧
    (idleDecay 20.3 true).1 < 20 := by
  have h1 : brPlayerDamage 0 0 100 20 20 = (19.5, 20) := by
    norm_num [brPlayerDamage, growPlayer, distGt, dist2, CANVAS_WIDTH, CANVAS_HEIGHT, max_def]
  have h2 : idleDecay 20.3 true = (19.8, 20) := by
    norm_num [idleDecay, growPlayer, max_def]
  rw [h1, h2]
  norm_num

/-- The longer-lived profile stats record from GameContext.tsx (`GameStats`).
Date strings are opaque. -/
structure GameStats where
  totalPoints : ℤ
  gamesPlayed : ℤ
  highScore : ℤ
  livesRemaining : ℤ
  lastLifeReset : String
  lastLoginDate : String
  loginStreak : ℤ
deriving DecidableEq

/-- Embeds `INITIAL_STATS` (GameContext lines 83-91); `today` stands for
`new Date().toDateString()` at module initialisation. -/
def INITIAL_STATS (today : String) : GameStats :=
  { totalPoints := 0, gamesPlayed := 0, highScore := 0, livesRemaining := 10
    lastLifeReset := today, lastLoginDate := today, loginStreak := 1 }

/-- Embeds `useLife` (GameContext lines 385-393): returns false and leaves the
stats unchanged when `livesRemaining <= 0`, otherwise decrements
`livesRemaining` by one and returns true. -/
def useLife (s : GameStats) : GameStats × Bool :=
  if s.livesRemaining ≤ 0 then (s, false)
  else ({ s with livesRemaining := s.livesRemaining - 1 }, true)

/-- Embeds `refillLives` (GameContext lines 354-359). -/
def refillLives (s : GameStats) : GameStats := { s with livesRemaining := 10 }

/-- Embeds the stats update of `endGame` (GameContext lines 369-379); the
point-multiplier flag is read from the upgrades list at the call site. -/
def endGameStats (s : GameStats) (finalScore : ℤ) (pointMultiplier : Bool) : GameStats :=
  let totalScore := finalScore * (if pointMultiplier then 2 else 1)
  { s with totalPoints := s.totalPoints + totalScore
           gamesPlayed := s.gamesPlayed + 1
           highScore := max s.highScore totalScore }

/-- Embeds the stats debit of `purchaseUpgrade` (GameContext lines 332-335). -/
def purchaseDebit (s : GameStats) (price : ℤ) : GameStats :=
  { s with totalPoints := s.totalPoints - price }

/-- Embeds the reward credits of `updateChallengeProgress` and
`claimChallengeReward` (GameContext lines 407-413 and 430-433). -/
def creditPoints (s : GameStats) (amount : ℤ) : GameStats :=
  { s with totalPoints := s.totalPoints + amount }

/-- Embeds the daily reset / login-streak effect (GameContext lines 258-291);
`today` and `yesterday` stand for the corresponding `toDateString()` values. -/
def dailyReset (s : GameStats) (today yesterday : String) : GameStats :=
  if s.lastLifeReset ≠ today then
    let s1 := { s with livesRemaining := 10, lastLifeReset := today }
    if s.lastLoginDate ≠ today then
      let streak := if s.lastLoginDate = yesterday then s.loginStreak + 1 else 1
      { s1 with loginStreak := streak
                lastLoginDate := today
                totalPoints := s1.totalPoints + min (streak * 5) 50 }
    else s1
  else s

/-- The states of the profile stats record reachable through the operations
GameContext performs on it. -/
inductive StatsReachable : GameStats → Prop
  | init (today : String) : StatsReachable (INITIAL_STATS today)
  | lifeStep (s : GameStats) (h : StatsReachable s) : StatsReachable (useLife s).1
  | refillStep (s : GameStats) (h : StatsReachable s) : StatsReachable (refillLives s)
  | endGameStep (s : GameStats) (fs : ℤ) (pm : Bool) (h : StatsReachable s) :
      StatsReachable (endGameStats s fs pm)
  | purchaseStep (s : GameStats) (price : ℤ) (h : StatsReachable s) :
      StatsReachable (purchaseDebit s price)
  | creditStep (s : GameStats) (amount : ℤ) (h : StatsReachable s) :
      StatsReachable (creditPoints s amount)
  | dailyStep (s : GameStats) (today yesterday : String) (h : StatsReachable s) :
      StatsReachable (dailyReset s today yesterday)

theorem statsReachable_lives_nonneg (s : GameStats) (h : StatsReachable s) :
    0 ≤ s.livesRemaining := by
  induction h with
  | init today => simp [INITIAL_STATS]
  | lifeStep s h ih =>
    unfold useLife
    split
    · exact ih
    · simp only []
      omega
  | refillStep s h ih => simp [refillLives]
  | endGameStep s fs pm h ih => simpa [endGameStats] using ih
  | purchaseStep s price h ih => simpa [purchaseDebit] using ih
  | creditStep s amount h ih => simpa [creditPoints] using ih
  | dailyStep s today yesterday h ih =>
    unfold dailyReset
    split
    · split <;> simp
    · exact ih

/-- C8: `useLife` decrements `livesRemaining` by exactly one and returns true
when it is positive; when it is zero the stats are unchanged and it returns
false; and `livesRemaining` is nonnegative in every state reachable through
the stats operations. -/
theorem C8_useLife (s : GameStats) :
    (0 < s.livesRemaining →
      useLife s = ({ s with livesRemaining := s.livesRemaining - 1 }, true)) ∧
    (s.livesRemaining = 0 → useLife s = (s, false)) ∧
    (StatsReachable s → 0 ≤ s.livesRemaining) := by
  refine ⟨?_, ?_, statsReachable_lives_nonneg s⟩
  · intro hpos
    rw [useLife, if_neg (by omega)]
  · intro hz
    rw [useLife, if_pos (by omega)]

/-- Witness for C8 at a concrete reachable state: starting from the initial
stats (10 lives), `useLife` yields 9 lives and true, and nonnegativity holds. -/
theorem C8_useLife_witness :
    useLife (INITIAL_STATS "d") =
      ({ INITIAL_STATS "d" with livesRemaining := 9 }, true) ∧
    0 ≤ (INITIAL_STATS "d").livesRemaining := by
  have h := C8_useLife (INITIAL_STATS "d")
  refine ⟨?_, h.2.2 (StatsReachable.init "d")⟩
  have h1 := h.1 (by decide)
  simpa using h1

/-- The ActivePowerUp record from GameContext.tsx: id, display name, absolute
expiry timestamp (milliseconds, as an integer). -/
structure ActivePowerUp where
  id : String
  name : String
  expiresAt : ℤ
deriving DecidableEq

/-- The Upgrade record from GameContext.tsx (fields read by the power-up
logic; description, type and category tags carry no logic here). -/
structure Upgrade where
  id : String
  name : String
  price : ℤ
  owned : Bool
  effectDuration : Option ℤ := none
deriving DecidableEq

/-- Embeds `activatePowerUp` (GameContext lines 338-352): look up the upgrade
by id; return unchanged when it is absent or has no (or a zero, hence falsy)
`effectDuration`; otherwise filter out any active entry with the same id and
append a fresh entry expiring at `now + effectDuration`. -/
def activatePowerUp (upgrades : List Upgrade) (active : List ActivePowerUp)
    (now : ℤ) (powerUpId : String) : List ActivePowerUp :=
  match upgrades.find? (fun u => u.id == powerUpId) with
  | none => active
  | some u =>
    match u.effectDuration with
    | none => active
    | some d =>
      if d = 0 then active
      else
        active.filter (fun p => !(p.id == powerUpId)) ++
          [{ id := powerUpId, name := u.name, expiresAt := now + d }]

theorem countP_activatePowerUp_le (upgrades : List Upgrade)
    (active : List ActivePowerUp) (now : ℤ) (powerUpId : String) (i : String)
    (hinv : active.countP (fun p => p.id == i) ≤ 1) :
    (activatePowerUp upgrades active now powerUpId).countP (fun p => p.id == i) ≤ 1 := by
  rcases hfind : upgrades.find? (fun u => u.id == powerUpId) with _ | u
  · simp only [activatePowerUp, hfind]
    exact hinv
  · rcases hd : u.effectDuration with _ | d
    · simp only [activatePowerUp, hfind, hd]
      exact hinv
    · by_cases hz : d = 0
      · simp only [activatePowerUp, hfind, hd, if_pos hz]
        exact hinv
      · simp only [activatePowerUp, hfind, hd, if_neg hz, List.countP_append]
        by_cases hip : i = powerUpId
        · subst hip
          have hzero : (active.filter (fun p => !(p.id == i))).countP
              (fun p => p.id == i) = 0 := by
            rw [List.countP_eq_zero]
            intro p hp
            rcases List.mem_filter.mp hp with ⟨-, hne⟩
            simpa using hne
          rw [hzero]
          simp [List.countP_cons]
        · have hone : ([{ id := powerUpId, name := u.name, expiresAt := now + d }] :
              List ActivePowerUp).countP (fun p => p.id == i) = 0 := by
            simp [List.countP_cons, Ne.symm hip]
          rw [hone]
          have hsub : (active.filter (fun p => !(p.id == powerUpId))).countP
              (fun p => p.id == i) ≤ active.countP (fun p => p.id == i) :=
            (List.filter_sublist active).countP_le _
          omega

/-- C7: activating a power-up never produces two concurrent entries with the
same id: if every id occurs at most once in the active list, the same holds
after `activatePowerUp`; and when the upgrade exists with a usable (nonzero)
duration `d`, the result contains exactly one entry for that id, the fresh one
expiring at `now + d`. -/
theorem C7_powerup_no_stacking (upgrades : List Upgrade)
    (active : List ActivePowerUp) (now : ℤ) (powerUpId : String)
    (hinv : ∀ i : String, active.countP (fun p => p.id == i) ≤ 1) :
    (∀ i : String,
      (activatePowerUp upgrades active now powerUpId).countP (fun p => p.id == i) ≤ 1) ∧
    (∀ u : Upgrade, ∀ d : ℤ,
      upgrades.find? (fun u' => u'.id == powerUpId) = some u →
      u.effectDuration = some d → d ≠ 0 →
      (activatePowerUp upgrades active now powerUpId).countP
          (fun p => p.id == powerUpId) = 1 ∧
      ({ id := powerUpId, name := u.name, expiresAt := now + d } : ActivePowerUp) ∈
        activatePowerUp upgrades active now powerUpId) := by
  constructor
  · intro i
    exact countP_activatePowerUp_le upgrades active now powerUpId i (hinv i)
  · intro u d hfind hd hz
    simp only [activatePowerUp, hfind, hd, if_neg hz]
    constructor
    · rw [List.countP_append]
      have hzero : (active.filter (fun p => !(p.id == powerUpId))).countP
          (fun p => p.id == powerUpId) = 0 := by
        rw [List.countP_eq_zero]
        intro p hp
        rcases List.mem_filter.mp hp with ⟨-, hne⟩
        simpa using hne
      rw [hzero]
      simp [List.countP_cons]
    · exact List.mem_append_right _ (List.mem_singleton.mpr rfl)

/-- Witness for C7: activating the shield power-up (duration 5000) at time
1000 over an active list already holding a shield entry yields exactly one
shield entry, expiring at 6000. -/
theorem C7_powerup_no_stacking_witness :
    (activatePowerUp
        [{ id := "shield", name := "5s Shield", price := 30, owned := false,
           effectDuration := some 5000 }]
        [{ id := "shield", name := "5s Shield", expiresAt := 2000 }]
        1000 "shield").countP (fun p => p.id == "shield") = 1 ∧
    ({ id := "shield", name := "5s Shield", expiresAt := 6000 } : ActivePowerUp) ∈
      activatePowerUp
        [{ id := "shield", name := "5s Shield", price := 30, owned := false,
           effectDuration := some 5000 }]
        [{ id := "shield", name := "5s Shield", expiresAt := 2000 }]
        1000 "shield" := by
  have hinv : ∀ i : String,
      ([{ id := "shield", name := "5s Shield", expiresAt := 2000 }] :
        List ActivePowerUp).countP (fun p => p.id == i) ≤ 1 := by
    intro i
    simp only [List.countP_cons, List.countP_nil]
    split <;> norm_num
  have h := (C7_powerup_no_stacking
      [{ id := "shield", name := "5s Shield", price := 30, owned := false,
         effectDuration := some 5000 }]
      [{ id := "shield", name := "5s Shield", expiresAt := 2000 }]
      1000 "shield" hinv).2
      { id := "shield", name := "5s Shield", price := 30, owned := false,
        effectDuration := some 5000 }
      5000 (by simp [List.find?]) rfl (by norm_num)
  norm_num at h
  exact h

/-- The Challenge record from GameContext.tsx (fields read by the progress
logic; name and description carry none). -/
structure Challenge where
  id : String
  targetValue : ℤ
  currentValue : ℤ
  completed : Bool
  reward : ℤ
  type : String
deriving DecidableEq

/-- Embeds the per-challenge branch of `updateChallengeProgress` (GameContext
lines 400-424): a challenge of the matching type that is not yet completed
gets `currentValue := Math.min(currentValue + value, targetValue)` and
`completed := (currentValue + value >= targetValue)`; every other challenge is
returned unchanged. -/
def updateOneChallenge (challengeType : String) (value : ℤ) (c : Challenge) : Challenge :=
  if c.type = challengeType ∧ c.completed = false then
    let newValue := c.currentValue + value
    { c with currentValue := min newValue c.targetValue
             completed := decide (newValue ≥ c.targetValue) }
  else c

/-- Embeds the reward credit of the same branch: the reward is added to
`totalPoints` exactly when the branch is taken and `newValue >= targetValue`
(the code's inner guard `completed && !challenge.completed`). -/
def creditsNow (challengeType : String) (value : ℤ) (c : Challenge) : Bool :=
  decide (c.type = challengeType ∧ c.completed = false ∧
    c.targetValue ≤ c.currentValue + value)

/-- Embeds the full `updateChallengeProgress` call: the mapped challenge list,
and `totalPoints` increased by the rewards credited during the map. -/
def updateChallengeProgress (cs : List Challenge) (totalPoints : ℤ)
    (challengeType : String) (value : ℤ) : List Challenge × ℤ :=
  (cs.map (updateOneChallenge challengeType value),
   totalPoints +
     (cs.map (fun c => if creditsNow challengeType value c then c.reward else 0)).sum)

/-- A challenge's credit count over a sequence of `updateChallengeProgress`
calls (each call given by its challenge-type string and value): counts the
calls whose crediting branch fires for this challenge as it evolves. -/
def creditCount (c : Challenge) : List (String × ℤ) → ℕ
  | [] => 0
  | (t, v) :: rest =>
    (if creditsNow t v c then 1 else 0) + creditCount (updateOneChallenge t v c) rest

theorem updateOneChallenge_completed (t : String) (v : ℤ) (c : Challenge)
    (h : c.completed = true) : updateOneChallenge t v c = c := by
  rw [updateOneChallenge, if_neg]
  rintro ⟨-, hfalse⟩
  rw [h] at hfalse
  exact Bool.noConfusion hfalse

theorem creditsNow_false_of_completed (t : String) (v : ℤ) (c : Challenge)
    (h : c.completed = true) : creditsNow t v c = false := by
  rw [creditsNow]
  simp [h]

theorem creditsNow_marks_completed (t : String) (v : ℤ) (c : Challenge)
    (h : creditsNow t v c = true) : (updateOneChallenge t v c).completed = true := by
  rw [creditsNow] at h
  rcases of_decide_eq_true h with ⟨ht, hnc, hge⟩
  rw [updateOneChallenge, if_pos ⟨ht, hnc⟩]
  simpa using hge

theorem creditCount_zero_of_completed (c : Challenge) (calls : List (String × ℤ))
    (h : c.completed = true) : creditCount c calls = 0 := by
  induction calls generalizing c with
  | nil => rfl
  | cons call rest ih =>
    obtain ⟨t, v⟩ := call
    rw [creditCount, creditsNow_false_of_completed t v c h, if_neg (by simp),
      updateOneChallenge_completed t v c h, ih c h]

theorem creditCount_le_one (c : Challenge) (calls : List (String × ℤ)) :
    creditCount c calls ≤ 1 := by
  induction calls generalizing c with
  | nil => exact Nat.zero_le 1
  | cons call rest ih =>
    obtain ⟨t, v⟩ := call
    rw [creditCount]
    by_cases hcr : creditsNow t v c = true
    · rw [if_pos hcr, creditCount_zero_of_completed _ rest
        (creditsNow_marks_completed t v c hcr)]
    · rw [if_neg hcr]
      simpa using ih (updateOneChallenge t v c)

/-- C10: in `updateChallengeProgress`, (a) a challenge's `currentValue` never
exceeds its `targetValue` (progress is clamped at the target), (b) a challenge
already marked completed is never modified again — in particular every
completed member of the input list reappears unchanged in the output — and
(c) over any sequence of calls, a challenge's reward is credited at most
once. -/
theorem C10_challenge_progress (t : String) (v : ℤ) (c : Challenge)
    (cs : List Challenge) (pts : ℤ) (calls : List (String × ℤ)) :
    (c.currentValue ≤ c.targetValue →
      (updateOneChallenge t v c).currentValue ≤ (updateOneChallenge t v c).targetValue) ∧
    (c.completed = true → updateOneChallenge t v c = c) ∧
    (c ∈ cs → c.completed = true → c ∈ (updateChallengeProgress cs pts t v).1) ∧
    creditCount c calls ≤ 1 := by
  refine ⟨?_, updateOneChallenge_completed t v c, ?_, creditCount_le_one c calls⟩
  · intro hle
    rw [updateOneChallenge]
    split
    · simp only []
      exact min_le_right _ _
    · exact hle
  · intro hmem hcomp
    rw [updateChallengeProgress]
    exact List.mem_map.mpr ⟨c, hmem, updateOneChallenge_completed t v c hcomp⟩

/-- Witness for C10 at a concrete challenge (the "Blob Hunter" challenge at
9/10, receiving 5 progress twice): progress clamps at the target of 10, a
completed challenge is untouched, and the reward fires at most once. -/
theorem C10_challenge_progress_witness :
    (updateOneChallenge "eat_blobs" 5
        { id := "eat_10_blobs", targetValue := 10, currentValue := 9,
          completed := false, reward := 25, type := "eat_blobs" }).currentValue ≤ 10 ∧
    creditCount
        { id := "eat_10_blobs", targetValue := 10, currentValue := 9,
          completed := false, reward := 25, type := "eat_blobs" }
        [("eat_blobs", 5), ("eat_blobs", 5)] ≤ 1 := by
  have h := C10_challenge_progress "eat_blobs" 5
      { id := "eat_10_blobs", targetValue := 10, currentValue := 9,
        completed := false, reward := 25, type := "eat_blobs" }
      [] 0 [("eat_blobs", 5), ("eat_blobs", 5)]
  exact ⟨h.1 (by norm_num), h.2.2.2⟩

/-- Tick-scoped outcome of the player-vs-bot collision pass of `updateGame`
(lines 573-630): the evolving tick-local player size, points credited, ids of
bots eaten by the player (`botsToRemoveFromPlayer`), number of replacement
bots pushed, and whether `handleGameOver` was invoked. -/
structure PlayerBotResult where
  playerSize : ℚ
  points : ℤ
  removed : List String
  spawns : ℕ
  gameOverCalled : Bool
deriving DecidableEq

/-- Embeds the body of the `currentBots.forEach` loop of the player-vs-bot
pass (lines 578-627): skip bots already eaten this pass; on overlap
(`distance < newPlayerSize / 2 + bot.size / 2`), the player eats the bot when
`newPlayerSize > bot.size || hasInstantKill` — crediting
`Math.floor(bot.size / 2)` times 2 per owned point multiplier and active
double-points power-up, growing by `bot.size * 0.1`, marking the bot removed
and pushing one replacement bot unless the mode is battle royale — otherwise,
without an active shield, `handleGameOver()` fires. -/
def playerBotStep (px py : ℚ)
    (hasInstantKill shieldActive doublePoints pointMultiplier : Bool)
    (mode : GameMode) (r : PlayerBotResult) (bot : Blob) : PlayerBotResult :=
  if bot.id ∈ r.removed then r
  else if distLt px py bot.x bot.y (r.playerSize / 2 + bot.size / 2) then
    if r.playerSize > bot.size ∨ hasInstantKill = true then
      { playerSize := r.playerSize + bot.size * 0.1
        points := r.points +
          Int.floor (bot.size / 2) * (if pointMultiplier = true then 2 else 1) *
            (if doublePoints = true then 2 else 1)
        removed := r.removed ++ [bot.id]
        spawns := r.spawns + (if mode = GameMode.battleRoyale then 0 else 1)
        gameOverCalled := r.gameOverCalled }
    else if shieldActive = false then { r with gameOverCalled := true }
    else r
  else r

/-- The whole player-vs-bot pass: fold the loop body over the bot list
(bots pushed during the loop are not themselves visited, per the ECMAScript
`forEach` range rule, and none of them is in the removal set). -/
def playerBotPhase (px py ps : ℚ) (ik sh dp pm : Bool) (mode : GameMode)
    (bots : List Blob) : PlayerBotResult :=
  bots.foldl (playerBotStep px py ik sh dp pm mode)
    { playerSize := ps, points := 0, removed := [], spawns := 0, gameOverCalled := false }

/-- Embeds the inner `currentBots.forEach` of the bot-vs-bot pass
(lines 530-538): the predator `bot` scans every other bot not yet in
`botsToRemove`; on overlap with a strictly smaller bot it accumulates
`otherBot.size * 0.1` growth and marks the prey removed. Returns the growth
and the updated removal set. -/
def botBotEat (bot : Blob) : List Blob → ℚ → List String → ℚ × List String
  | [], g, rem => (g, rem)
  | other :: rest, g, rem =>
    if bot.id ≠ other.id ∧ other.id ∉ rem ∧
        distLt bot.x bot.y other.x other.y (bot.size / 2 + other.size / 2) ∧
        bot.size > other.size then
      botBotEat bot rest (g + other.size * 0.1) (rem ++ [other.id])
    else
      botBotEat bot rest g rem

/-- Embeds the outer `currentBots.map` of the bot-vs-bot pass (lines 526-541):
a bot already marked removed is returned untouched and does not prey; any
other bot scans the (pre-pass) bot list and grows by what it ate. The removal
set threads through the map in order. -/
def botBotMap (allBots : List Blob) : List Blob → List String → List Blob × List String
  | [], rem => ([], rem)
  | bot :: rest, rem =>
    if bot.id ∈ rem then
      let p := botBotMap allBots rest rem
      (bot :: p.1, p.2)
    else
      let eat := botBotEat bot allBots 0 rem
      let p := botBotMap allBots rest eat.2
      ({ bot with size := bot.size + eat.1 } :: p.1, p.2)

/-- The whole bot-vs-bot pass (lines 524-541): map with a fresh `botsToRemove`
set, then `.filter(bot => !botsToRemove.has(bot.id))`. -/
def botBotPhase (bots : List Blob) : List Blob :=
  let p := botBotMap bots bots []
  p.1.filter (fun bb => decide (bb.id ∉ p.2))

theorem dist2_comm (x1 y1 x2 y2 : ℚ) : dist2 x1 y1 x2 y2 = dist2 x2 y2 x1 y1 := by
  unfold dist2
  ring

/-- C5: whenever the player eats a bot in the player-vs-bot pass (overlap and
`newPlayerSize > bot.size || hasInstantKill`, bot not already eaten), the
points credited for that consumption are exactly
`floor(victimSize / 2) * (2 if point multiplier owned else 1) *
(2 if double points active else 1)`. -/
theorem C5_eat_scoring (px py : ℚ) (ik sh dp pm : Bool) (mode : GameMode)
    (r : PlayerBotResult) (bot : Blob)
    (hnr : bot.id ∉ r.removed)
    (hov : distLt px py bot.x bot.y (r.playerSize / 2 + bot.size / 2))
    (heat : r.playerSize > bot.size ∨ ik = true) :
    (playerBotStep px py ik sh dp pm mode r bot).points =
      r.points + Int.floor (bot.size / 2) * (if pm = true then 2 else 1) *
        (if dp = true then 2 else 1) := by
  rw [playerBotStep, if_neg hnr, if_pos hov, if_pos heat]

/-- Witness for C5: a size-30 player over a size-24 bot with both multipliers
active is credited `floor(24/2) * 2 * 2 = 48` points. -/
theorem C5_eat_scoring_witness :
    (playerBotStep 0 0 false false true true GameMode.classic
        { playerSize := 30, points := 0, removed := [], spawns := 0,
          gameOverCalled := false }
        { id := "bot-0", x := 0, y := 0, size := 24 }).points = 48 := by
  have h := C5_eat_scoring 0 0 false false true true GameMode.classic
      { playerSize := 30, points := 0, removed := [], spawns := 0,
        gameOverCalled := false }
      { id := "bot-0", x := 0, y := 0, size := 24 }
      (by simp)
      (by constructor <;> norm_num [dist2])
      (Or.inl (by norm_num))
  rw [h]
  norm_num

theorem playerBotPhase_spawns_aux (px py : ℚ) (ik sh dp pm : Bool)
    (mode : GameMode) (bots : List Blob) (r : PlayerBotResult)
    (h : r.spawns = if mode = GameMode.battleRoyale then 0 else r.removed.length) :
    (bots.foldl (playerBotStep px py ik sh dp pm mode) r).spawns =
      if mode = GameMode.battleRoyale then 0
      else (bots.foldl (playerBotStep px py ik sh dp pm mode) r).removed.length := by
  induction bots generalizing r with
  | nil => simpa using h
  | cons bot rest ih =>
    rw [List.foldl_cons]
    apply ih
    rw [playerBotStep]
    by_cases h1 : bot.id ∈ r.removed
    · rw [if_pos h1]
      exact h
    · rw [if_neg h1]
      by_cases h2 : distLt px py bot.x bot.y (r.playerSize / 2 + bot.size / 2)
      · rw [if_pos h2]
        by_cases h3 : r.playerSize > bot.size ∨ ik = true
        · rw [if_pos h3]
          by_cases hbr : mode = GameMode.battleRoyale
          · simp only [hbr, if_pos rfl] at h ⊢
            simpa using h
          · simp only [if_neg hbr] at h ⊢
            simp [h]
        · rw [if_neg h3]
          by_cases h4 : sh = false
          · rw [if_pos h4]
            exact h
          · rw [if_neg h4]
            exact h
      · rw [if_neg h2]
        exact h

/-- C6 (amended): in the player-vs-bot pass, the number of replacement bots
pushed equals, outside battle royale, exactly the number of bots the player
ate (one replacement per player consumption), and is zero in battle royale.
Bots consumed by other bots (the bot-vs-bot pass) trigger no replacement —
that pass pushes no bots at all. -/
theorem C6_player_spawn_amended (px py ps : ℚ) (ik sh dp pm : Bool)
    (mode : GameMode) (bots : List Blob) :
    (playerBotPhase px py ps ik sh dp pm mode bots).spawns =
      if mode = GameMode.battleRoyale then 0
      else (playerBotPhase px py ps ik sh dp pm mode bots).removed.length := by
  apply playerBotPhase_spawns_aux
  by_cases hbr : mode = GameMode.battleRoyale <;> simp [hbr]

/-- C2 (counterexample to the claim as stated): with the player and a bot of
exactly equal size 30 overlapping, no instant kill and no shield, the
player-vs-bot pass takes the `else` branch — the bot consumes the player
(`handleGameOver()` fires) and the player eats nothing — contradicting
"when the two overlapping entities have exactly equal sizes, neither consumes
the other". -/
theorem C2_equal_size_tie_counterexample :
    (playerBotPhase 0 0 30 false false false false GameMode.classic
        [{ id := "bot-0", x := 0, y := 0, size := 30 }]).gameOverCalled = true ∧
    (playerBotPhase 0 0 30 false false false false GameMode.classic
        [{ id := "bot-0", x := 0, y := 0, size := 30 }]).removed = [] := by
  norm_num [playerBotPhase, playerBotStep, distLt, dist2]

/-- C2 (amended): bot-vs-bot consumption is strict in both directions — the
strictly larger bot consumes the strictly smaller one, and exactly equal
sizes leave both bots untouched — and the player (without instant kill)
consumes only strictly smaller bots; but in player-vs-bot the tie goes to the
bot: an overlapping bot consumes the player (game over) whenever the player
is not strictly larger, equal sizes included, absent shield. -/
theorem C2_strict_consumption_amended (px py ps : ℚ) (sh dp pm : Bool)
    (mode : GameMode) (bot a b : Blob)
    (hov : distLt px py bot.x bot.y (ps / 2 + bot.size / 2))
    (hab : a.id ≠ b.id)
    (hov2 : distLt a.x a.y b.x b.y (a.size / 2 + b.size / 2)) :
    (ps > bot.size →
      (playerBotPhase px py ps false sh dp pm mode [bot]).removed = [bot.id] ∧
      (playerBotPhase px py ps false sh dp pm mode [bot]).gameOverCalled = false) ∧
    (ps ≤ bot.size →
      (playerBotPhase px py ps false false dp pm mode [bot]).removed = [] ∧
      (playerBotPhase px py ps false false dp pm mode [bot]).gameOverCalled = true) ∧
    (a.size > b.size →
      botBotPhase [a, b] = [{ a with size := a.size + b.size * 0.1 }]) ∧
    (a.size = b.size → botBotPhase [a, b] = [a, b]) ∧
    (a.size < b.size →
      botBotPhase [a, b] = [{ b with size := b.size + a.size * 0.1 }]) := by
  have hov2' : distLt b.x b.y a.x a.y (b.size / 2 + a.size / 2) := by
    obtain ⟨h1, h2⟩ := hov2
    constructor
    · linarith
    · rw [dist2_comm]
      calc dist2 a.x a.y b.x b.y < (a.size / 2 + b.size / 2) ^ 2 := h2
        _ = (b.size / 2 + a.size / 2) ^ 2 := by ring
  have hba : b.id ≠ a.id := Ne.symm hab
  refine ⟨?_, ?_, ?_, ?_, ?_⟩
  · intro hgt
    constructor <;>
      simp [playerBotPhase, playerBotStep, distLt, hov.1, hov.2, hgt]
  · intro hle
    have hngt : ¬(ps > bot.size) := not_lt.mpr hle
    constructor <;>
      simp [playerBotPhase, playerBotStep, distLt, hov.1, hov.2, hngt]
  · intro hgt
    have hn2 : ¬(b.size > a.size) := lt_asymm hgt
    simp [botBotPhase, botBotMap, botBotEat, distLt, hov2.1, hov2.2, hab, hba, hgt, hn2]
  · intro heq
    have hn1 : ¬(a.size > b.size) := by rw [heq]; exact lt_irrefl _
    have hn2 : ¬(b.size > a.size) := by rw [heq]; exact lt_irrefl _
    simp [botBotPhase, botBotMap, botBotEat, hab, hba, hn1, hn2]
  · intro hlt
    have hn1 : ¬(a.size > b.size) := lt_asymm hlt
    simp [botBotPhase, botBotMap, botBotEat, distLt, hov2'.1, hov2'.2, hab, hba, hlt, hn1]

/-- Witness for C2 (amended) at spec scenario values: a size-30 player over a
size-24 bot eats it without game over, and bot A (size 30) over bot B
(size 24) consumes B, A surviving with size 30 + 24 * 0.1 = 32.4. -/
theorem C2_strict_consumption_amended_witness :
    (playerBotPhase 0 0 30 false false false false GameMode.classic
        [{ id := "bot-0", x := 0, y := 0, size := 24 }]).removed = ["bot-0"] ∧
    botBotPhase [{ id := "bot-0", x := 0, y := 0, size := 30 },
                 { id := "bot-1", x := 0, y := 0, size := 24 }] =
      [{ id := "bot-0", x := 0, y := 0, size := 30 + 24 * 0.1 }] := by
  have h := C2_strict_consumption_amended 0 0 30 false false false
      GameMode.classic
      { id := "bot-0", x := 0, y := 0, size := 24 }
      { id := "bot-0", x := 0, y := 0, size := 30 }
      { id := "bot-1", x := 0, y := 0, size := 24 }
      (by constructor <;> norm_num [dist2])
      (by decide)
      (by constructor <;> norm_num [dist2])
  exact ⟨(h.1 (by norm_num)).1, h.2.2.1 (by norm_num)⟩

/-- C6 (counterexample to the claim as stated): in classic mode, bot-0
(size 30) and bot-1 (size 24) overlap, so the bot-vs-bot pass removes bot-1;
with the player far away the player-vs-bot pass then pushes no replacement —
a bot was removed this tick with zero replacement spawns, contradicting
"each bot removed during a tick ... triggers exactly one replacement bot
spawn in that tick". -/
theorem C6_bot_eaten_no_respawn_counterexample :
    (botBotPhase [{ id := "bot-0", x := 0, y := 0, size := 30 },
                  { id := "bot-1", x := 0, y := 0, size := 24 }]).length = 1 ∧
    (playerBotPhase 900 1400 20 false false false false GameMode.classic
        (botBotPhase [{ id := "bot-0", x := 0, y := 0, size := 30 },
                      { id := "bot-1", x := 0, y := 0, size := 24 }])).spawns = 0 ∧
    (playerBotPhase 900 1400 20 false false false false GameMode.classic
        (botBotPhase [{ id := "bot-0", x := 0, y := 0, size := 30 },
                      { id := "bot-1", x := 0, y := 0, size := 24 }])).removed = [] := by
  have hb : botBotPhase [{ id := "bot-0", x := 0, y := 0, size := 30 },
      { id := "bot-1", x := 0, y := 0, size := 24 }] =
      [{ id := "bot-0", x := 0, y := 0, size := 30 + 24 * 0.1 }] := by
    have hne : ("bot-0" : String) ≠ "bot-1" := by decide
    have hne' : ("bot-1" : String) ≠ "bot-0" := by decide
    have hov : distLt 0 0 0 0 ((30 : ℚ) / 2 + 24 / 2) := by
      constructor <;> norm_num [dist2]
    norm_num [botBotPhase, botBotMap, botBotEat, distLt, dist2, hne, hne']
  rw [hb]
  refine ⟨rfl, ?_, ?_⟩ <;>
    norm_num [playerBotPhase, playerBotStep, distLt, dist2]

/-- Embeds the player-vs-food pass of `updateGame` (lines 307-322):
`currentFoods.filter` removes every food overlapping the player
(`distance < newPlayerSize / 2 + food.size / 2`), accumulating 0.3 growth per
food eaten. Returns (remaining foods, total growth this frame). -/
def playerFoodPhase (px py ps : ℚ) : List Blob → List Blob × ℚ
  | [] => ([], 0)
  | f :: rest =>
    let p := playerFoodPhase px py ps rest
    if distLt px py f.x f.y (ps / 2 + f.size / 2) then (p.1, p.2 + 0.3)
    else (f :: p.1, p.2)

/-- Embeds one bot's food scan of the bot-vs-food pass (lines 325-337): the
bot removes every overlapping food, gaining 0.2 growth per food. -/
def botFoodEat (bx bY bsize : ℚ) : List Blob → List Blob × ℚ
  | [] => ([], 0)
  | f :: rest =>
    let p := botFoodEat bx bY bsize rest
    if distLt bx bY f.x f.y (bsize / 2 + f.size / 2) then (p.1, p.2 + 0.2)
    else (f :: p.1, p.2)

/-- Embeds the whole bot-vs-food pass (lines 324-337): map over the bots,
threading the shrinking food list; each bot grows by what it ate. Returns
(updated bots, remaining foods). -/
def botFoodPhase : List Blob → List Blob → List Blob × List Blob
  | [], foods => ([], foods)
  | bot :: rest, foods =>
    let e := botFoodEat bot.x bot.y bot.size foods
    let p := botFoodPhase rest e.1
    ({ bot with size := bot.size + e.2 } :: p.1, p.2)

/-- The food list after both consumption passes of a tick (player first, then
bots, exactly as `updateGame` orders them). -/
def postConsumeFoods (px py ps : ℚ) (bots foods : List Blob) : List Blob :=
  (botFoodPhase bots (playerFoodPhase px py ps foods).1).2

/-- Embeds the food regeneration of `updateGame` (lines 543-554): when the
live food count is below 150, push a batch of fresh food; the source pushes
exactly 30 randomly placed items, modelled by the `fresh` parameter (theorems
assume `fresh.length = 30`). -/
def regenFood (foods fresh : List Blob) : List Blob :=
  if foods.length < 150 then foods ++ fresh else foods

/-- The food list at the end of a tick: both consumption passes, then
regeneration. Nothing after this point in `updateGame` touches the foods. -/
def tickFoods (px py ps : ℚ) (bots foods fresh : List Blob) : List Blob :=
  regenFood (postConsumeFoods px py ps bots foods) fresh

theorem playerFoodPhase_append (px py ps : ℚ) (l1 l2 : List Blob) :
    playerFoodPhase px py ps (l1 ++ l2) =
      ((playerFoodPhase px py ps l1).1 ++ (playerFoodPhase px py ps l2).1,
       (playerFoodPhase px py ps l1).2 + (playerFoodPhase px py ps l2).2) := by
  induction l1 with
  | nil => simp [playerFoodPhase]
  | cons f rest ih =>
    by_cases h : distLt px py f.x f.y (ps / 2 + f.size / 2)
    · simp [playerFoodPhase, if_pos h, ih]
      ring
    · simp [playerFoodPhase, if_neg h, ih]

theorem playerFoodPhase_replicate_eaten (px py ps : ℚ) (f : Blob) (n : ℕ)
    (h : distLt px py f.x f.y (ps / 2 + f.size / 2)) :
    playerFoodPhase px py ps (List.replicate n f) = ([], 0.3 * (n : ℚ)) := by
  induction n with
  | zero => simp [playerFoodPhase]
  | succ n ih =>
    rw [List.replicate_succ]
    simp [playerFoodPhase, if_pos h, ih]
    ring

theorem playerFoodPhase_replicate_kept (px py ps : ℚ) (f : Blob) (n : ℕ)
    (h : ¬ distLt px py f.x f.y (ps / 2 + f.size / 2)) :
    playerFoodPhase px py ps (List.replicate n f) = (List.replicate n f, 0) := by
  induction n with
  | zero => simp [playerFoodPhase]
  | succ n ih =>
    rw [List.replicate_succ]
    simp [playerFoodPhase, if_neg h, ih]

/-- C4 (amended): whenever the post-consumption food count drops below 150,
exactly one batch of 30 fresh items is appended within the same tick (end
count = post-consumption count + 30), and an at-or-above-150 count is left
unchanged; this keeps the end-of-tick count at or above 150 exactly when the
post-consumption count is at least 120 — not in general, since one tick may
consume more than 30 items. -/
theorem C4_food_regen_amended (px py ps : ℚ) (bots foods fresh : List Blob)
    (h30 : fresh.length = 30) :
    ((postConsumeFoods px py ps bots foods).length < 150 →
      (tickFoods px py ps bots foods fresh).length =
        (postConsumeFoods px py ps bots foods).length + 30) ∧
    (150 ≤ (postConsumeFoods px py ps bots foods).length →
      tickFoods px py ps bots foods fresh = postConsumeFoods px py ps bots foods) ∧
    (120 ≤ (postConsumeFoods px py ps bots foods).length →
      150 ≤ (tickFoods px py ps bots foods fresh).length) := by
  refine ⟨?_, ?_, ?_⟩
  · intro hlt
    rw [tickFoods, regenFood, if_pos hlt, List.length_append, h30]
  · intro hge
    rw [tickFoods, regenFood, if_neg (by omega)]
  · intro h120
    by_cases hlt : (postConsumeFoods px py ps bots foods).length < 150
    · rw [tickFoods, regenFood, if_pos hlt, List.length_append, h30]
      omega
    · rw [tickFoods, regenFood, if_neg hlt]
      omega

/-- Witness for C4 (amended) at a concrete state: an empty post-consumption
food list gets exactly 30 fresh items, ending the tick at 0 + 30 = 30. -/
theorem C4_food_regen_amended_witness :
    (tickFoods 0 0 20 [] []
        (List.replicate 30 { id := "f", x := 1, y := 1, size := 4 })).length =
      (postConsumeFoods 0 0 20 [] []).length + 30 := by
  have h := C4_food_regen_amended 0 0 20 [] []
      (List.replicate 30 { id := "f", x := 1, y := 1, size := 4 })
      (List.length_replicate 30 _)
  exact h.1 (by simp [postConsumeFoods, playerFoodPhase, botFoodPhase])

/-- A food item lying exactly on the player's position (a possible random
placement), used in the C4 counterexample. -/
def c4near : Blob := { id := "food-0", x := 0, y := 0, size := 4 }

/-- A food item at the world centre, far from the C4 counterexample's
player. -/
def c4far : Blob := { id := "food-1", x := 500, y := 750, size := 4 }

/-- C4 (counterexample to the claim as stated): with the player at (0,0) of
size 20, a food list of 30 items under the player plus 119 far away, and each
fresh batch of 30 landing under the player again (a possible random outcome),
the tick eats 30 items (149 -> 119) and regenerates to 149 < 150, and the
next tick does the same: the live food count ends below 150 on two
consecutive ticks, contradicting "the live food count never remains below 150
across two consecutive ticks". -/
theorem C4_two_ticks_below_150_counterexample :
    (tickFoods 0 0 20 [] (List.replicate 30 c4near ++ List.replicate 119 c4far)
        (List.replicate 30 c4near)).length = 149 ∧
    (tickFoods 0 0 20 []
        (tickFoods 0 0 20 [] (List.replicate 30 c4near ++ List.replicate 119 c4far)
          (List.replicate 30 c4near))
        (List.replicate 30 c4near)).length = 149 ∧
    (149 : ℕ) < 150 := by
  have heat : distLt 0 0 c4near.x c4near.y ((20 : ℚ) / 2 + c4near.size / 2) := by
    constructor <;> norm_num [c4near, dist2]
  have hkeep : ¬ distLt 0 0 c4far.x c4far.y ((20 : ℚ) / 2 + c4far.size / 2) := by
    norm_num [c4far, dist2, distLt]
  have h1 : tickFoods 0 0 20 [] (List.replicate 30 c4near ++ List.replicate 119 c4far)
      (List.replicate 30 c4near) = List.replicate 119 c4far ++ List.replicate 30 c4near := by
    rw [tickFoods, postConsumeFoods, playerFoodPhase_append,
      playerFoodPhase_replicate_eaten _ _ _ _ _ heat,
      playerFoodPhase_replicate_kept _ _ _ _ _ hkeep]
    simp [botFoodPhase, regenFood]
  have h2 : tickFoods 0 0 20 [] (List.replicate 119 c4far ++ List.replicate 30 c4near)
      (List.replicate 30 c4near) = List.replicate 119 c4far ++ List.replicate 30 c4near := by
    rw [tickFoods, postConsumeFoods, playerFoodPhase_append,
      playerFoodPhase_replicate_kept _ _ _ _ _ hkeep,
      playerFoodPhase_replicate_eaten _ _ _ _ _ heat]
    simp [botFoodPhase, regenFood]
  rw [h1, h2]
  simp

/-- The bot AI's steering decision for one tick, one constructor per branch
of the `updateGame` decision cascade (lines 396-498): chase a team-mode
enemy, flee the nearest larger bot, flee the larger player, chase the nearest
smaller bot, chase the nearest food, or wander on the stored velocity. -/
inductive Steer where
  | teamChase (target : Blob)
  | avoidBot (larger : Blob)
  | avoidPlayer
  | chaseBot (smaller : Blob)
  | chaseFood (food : Blob)
  | wander
deriving DecidableEq

/-- The running-minimum test of the nearest-target scans: a candidate beats
the accumulator when the accumulator is empty (`Infinity` in the source) or
the candidate's squared distance is strictly smaller (ties keep the first
encountered). -/
def scanBetter (d2v : ℚ) : Option (Blob × ℚ) → Prop
  | none => True
  | some p => d2v < p.2

instance (d2v : ℚ) : (acc : Option (Blob × ℚ)) → Decidable (scanBetter d2v acc)
  | none => isTrue trivial
  | some p => inferInstanceAs (Decidable (d2v < p.2))

/-- Embeds the `forEach` nearest-target scans of the bot AI (lines 356-394 and
402-410): walk the candidate list keeping the qualifying candidate of least
distance within range `r2` (squared), first encountered winning ties. -/
def scanNearest (sx sy : ℚ) (pred : Blob → Prop) [DecidablePred pred] (r2 : ℚ) :
    List Blob → Option (Blob × ℚ) → Option (Blob × ℚ)
  | [], acc => acc
  | o :: rest, acc =>
    let d2v := dist2 sx sy o.x o.y
    scanNearest sx sy pred r2 rest
      (if pred o ∧ scanBetter d2v acc ∧ d2v < r2 then some (o, d2v) else acc)

/-- The player as seen by the team-mode enemy scan (line 416 assigns
`nearestEnemy = player`); only position is read from it afterwards. -/
def playerBlob (px py ps : ℚ) : Blob := { id := "player", x := px, y := py, size := ps }

/-- Embeds the team-mode enemy selection (lines 397-419): for a bot with a
team, the nearest strictly smaller opposing-team bot within 100; then the
player replaces it when on the other team, strictly smaller, closer than the
best bot and within 100. -/
def teamEnemyScan (selectedTeam : Team) (px py ps : ℚ) (bots : List Blob) (b : Blob) :
    Option (Blob × ℚ) :=
  match b.team with
  | none => none
  | some _ =>
    let fromBots := scanNearest b.x b.y
      (fun o => o.id ≠ b.id ∧ o.team ≠ b.team ∧ o.size < b.size) (100 ^ 2) bots none
    if b.team ≠ some selectedTeam ∧ ps < b.size ∧
        scanBetter (dist2 b.x b.y px py) fromBots ∧ dist2 b.x b.y px py < 100 ^ 2 then
      some (playerBlob px py ps, dist2 b.x b.y px py)
    else fromBots

/-- Stage 5-6 of the cascade (lines 477-498): chase the nearest food when one
was found at positive distance, else wander. -/
def steerFood (nFood : Option (Blob × ℚ)) : Steer :=
  match nFood with
  | some p => if 0 < p.2 then Steer.chaseFood p.1 else Steer.wander
  | none => Steer.wander

/-- Stage 4 (lines 464-475): chase the nearest smaller bot when its distance
re-checks below 80 and is positive, else fall through to food. -/
def steerSmall (nSmall nFood : Option (Blob × ℚ)) : Steer :=
  match nSmall with
  | some p => if p.2 < 80 ^ 2 ∧ 0 < p.2 then Steer.chaseBot p.1 else steerFood nFood
  | none => steerFood nFood

/-- Stage 3 (lines 448-462): flee the player when it is within 80, more than
1.2 times the bot's size, unshielded, and at positive distance. -/
def steerAvoidPlayer (px py ps : ℚ) (shieldActive : Bool) (b : Blob)
    (nSmall nFood : Option (Blob × ℚ)) : Steer :=
  if dist2 b.x b.y px py < 80 ^ 2 ∧ ps > b.size * 1.2 ∧ shieldActive = false ∧
      0 < dist2 b.x b.y px py then
    Steer.avoidPlayer
  else steerSmall nSmall nFood

/-- Stage 2 (lines 435-446): flee the nearest larger bot when its distance
re-checks below 60 and is positive, else fall through. -/
def steerAvoidBot (px py ps : ℚ) (shieldActive : Bool) (b : Blob)
    (nLarge nSmall nFood : Option (Blob × ℚ)) : Steer :=
  match nLarge with
  | some p =>
    if p.2 < 60 ^ 2 ∧ 0 < p.2 then Steer.avoidBot p.1
    else steerAvoidPlayer px py ps shieldActive b nSmall nFood
  | none => steerAvoidPlayer px py ps shieldActive b nSmall nFood

/-- The complete per-bot steering decision of one tick (lines 339-498): the
three nearest-target scans (food within 150, smaller bot — size below 0.8
of self — within 100, larger bot — size above 1.2 of self — within 80), the
team-mode enemy pre-emption (chases at trigger 80 and positive distance), and
the strict first-match-wins cascade. -/
def botDecide (mode : GameMode) (selectedTeam : Team) (px py ps : ℚ)
    (shieldActive : Bool) (bots foods : List Blob) (b : Blob) : Steer :=
  let nFood := scanNearest b.x b.y (fun _ => True) (150 ^ 2) foods none
  let nSmall := scanNearest b.x b.y
    (fun o => o.id ≠ b.id ∧ o.size < b.size * 0.8) (100 ^ 2) bots none
  let nLarge := scanNearest b.x b.y
    (fun o => o.id ≠ b.id ∧ o.size > b.size * 1.2) (80 ^ 2) bots none
  let teamEnemy :=
    if mode = GameMode.team then teamEnemyScan selectedTeam px py ps bots b else none
  match teamEnemy with
  | some p =>
    if p.2 < 80 ^ 2 ∧ 0 < p.2 then Steer.teamChase p.1
    else steerAvoidBot px py ps shieldActive b nLarge nSmall nFood
  | none => steerAvoidBot px py ps shieldActive b nLarge nSmall nFood

theorem scanNearest_eq_some (sx sy : ℚ) (pred : Blob → Prop) [DecidablePred pred]
    (r2 : ℚ) (l : List Blob) :
    ∀ (acc : Option (Blob × ℚ)) (c : Blob) (d : ℚ),
    scanNearest sx sy pred r2 l acc = some (c, d) →
    (c ∈ l ∧ pred c ∧ d = dist2 sx sy c.x c.y ∧ d < r2) ∨ acc = some (c, d) := by
  induction l with
  | nil =>
    intro acc c d h
    simp only [scanNearest] at h
    exact Or.inr h
  | cons o rest ih =>
    intro acc c d h
    simp only [scanNearest] at h
    rcases ih _ c d h with hin | hacc
    · exact Or.inl ⟨List.mem_cons_of_mem o hin.1, hin.2⟩
    · by_cases hc : pred o ∧ scanBetter (dist2 sx sy o.x o.y) acc ∧
          dist2 sx sy o.x o.y < r2
      · rw [if_pos hc] at hacc
        rcases Option.some.injEq _ _ ▸ hacc with h'
        have ho : o = c ∧ dist2 sx sy o.x o.y = d := by
          have := Prod.mk.injEq _ _ _ _ ▸ (Option.some.inj hacc)
          exact ⟨this.1, this.2⟩
        rcases ho with ⟨rfl, rfl⟩
        exact Or.inl ⟨List.mem_cons_self _ _, hc.1, rfl, hc.2.2⟩
      · rw [if_neg hc] at hacc
        exact Or.inr hacc

theorem scanNearest_mono (sx sy : ℚ) (pred : Blob → Prop) [DecidablePred pred]
    (r2 : ℚ) (l : List Blob) :
    ∀ (acc : Option (Blob × ℚ)) (p : Blob × ℚ), acc = some p →
    ∃ c d, scanNearest sx sy pred r2 l acc = some (c, d) ∧ d ≤ p.2 := by
  induction l with
  | nil =>
    intro acc p hacc
    exact ⟨p.1, p.2, by simp only [scanNearest, hacc], le_refl _⟩
  | cons o rest ih =>
    intro acc p hacc
    simp only [scanNearest]
    by_cases hc : pred o ∧ scanBetter (dist2 sx sy o.x o.y) acc ∧
        dist2 sx sy o.x o.y < r2
    · rw [if_pos hc]
      have hlt : dist2 sx sy o.x o.y < p.2 := by
        have := hc.2.1
        rw [hacc] at this
        exact this
      rcases ih (some (o, dist2 sx sy o.x o.y)) (o, dist2 sx sy o.x o.y) rfl with
        ⟨c, d, hs, hd⟩
      exact ⟨c, d, hs, le_trans hd (le_of_lt hlt)⟩
    · rw [if_neg hc]
      exact ih acc p hacc

theorem scanNearest_min (sx sy : ℚ) (pred : Blob → Prop) [DecidablePred pred]
    (r2 : ℚ) (l : List Blob) :
    ∀ (acc : Option (Blob × ℚ)) (c : Blob), c ∈ l → pred c →
    dist2 sx sy c.x c.y < r2 →
    ∃ bf d, scanNearest sx sy pred r2 l acc = some (bf, d) ∧
      d ≤ dist2 sx sy c.x c.y := by
  induction l with
  | nil =>
    intro acc c hmem
    exact absurd hmem (List.not_mem_nil c)
  | cons o rest ih =>
    intro acc c hmem hpred hr
    simp only [scanNearest]
    rcases List.mem_cons.mp hmem with rfl | hmem'
    · by_cases hc : pred c ∧ scanBetter (dist2 sx sy c.x c.y) acc ∧
          dist2 sx sy c.x c.y < r2
      · rw [if_pos hc]
        exact scanNearest_mono sx sy pred r2 rest _ (c, dist2 sx sy c.x c.y) rfl
      · rw [if_neg hc]
        have hbad : ¬ scanBetter (dist2 sx sy c.x c.y) acc := by
          intro hb
          exact hc ⟨hpred, hb, hr⟩
        rcases hacc : acc with _ | p
        · rw [hacc] at hbad
          exact absurd trivial hbad
        · rw [hacc] at hbad
          have hle : p.2 ≤ dist2 sx sy c.x c.y := not_lt.mp hbad
          rcases scanNearest_mono sx sy pred r2 rest (some p) p rfl with ⟨bf, d, hs, hd⟩
          exact ⟨bf, d, hs, le_trans hd hle⟩
    · exact ih _ c hmem' hpred hr

/-- C3 (amended): outside team mode, for every bot that has a qualifying
avoid-larger-bot target (another bot with size above 1.2 times its own)
within the 60-unit trigger range at strictly positive distance, the computed
steering for that tick is the avoid behaviour aimed at the nearest such bot,
and never the food chase — regardless of any food within 150. -/
theorem C3_avoid_over_food_amended (mode : GameMode) (selectedTeam : Team)
    (px py ps : ℚ) (shield : Bool) (bots foods : List Blob) (b : Blob)
    (hmode : mode ≠ GameMode.team)
    (hex : ∃ ob ∈ bots, (ob.id ≠ b.id ∧ ob.size > b.size * 1.2) ∧
      dist2 b.x b.y ob.x ob.y < 60 ^ 2)
    (hpos : ∀ ob ∈ bots, ob.id ≠ b.id → ob.size > b.size * 1.2 →
      0 < dist2 b.x b.y ob.x ob.y) :
    ∃ lb d2v,
      scanNearest b.x b.y (fun o => o.id ≠ b.id ∧ o.size > b.size * 1.2) (80 ^ 2)
        bots none = some (lb, d2v) ∧
      botDecide mode selectedTeam px py ps shield bots foods b = Steer.avoidBot lb ∧
      ∀ f : Blob,
        botDecide mode selectedTeam px py ps shield bots foods b ≠ Steer.chaseFood f := by
  obtain ⟨ob, hob, ⟨hid, hsz⟩, h60⟩ := hex
  have h80 : dist2 b.x b.y ob.x ob.y < 80 ^ 2 := lt_trans h60 (by norm_num)
  obtain ⟨lb, d, hscan, hdle⟩ := scanNearest_min b.x b.y
    (fun o => o.id ≠ b.id ∧ o.size > b.size * 1.2) (80 ^ 2) bots none ob hob
    ⟨hid, hsz⟩ h80
  have hq : lb ∈ bots ∧ (lb.id ≠ b.id ∧ lb.size > b.size * 1.2) ∧
      d = dist2 b.x b.y lb.x lb.y := by
    rcases scanNearest_eq_some b.x b.y
        (fun o => o.id ≠ b.id ∧ o.size > b.size * 1.2) (80 ^ 2) bots none lb d hscan with
      ⟨hm, hp, hde, -⟩ | habs
    · exact ⟨hm, hp, hde⟩
    · exact absurd habs (by simp)
  have hd60 : d < 60 ^ 2 := lt_of_le_of_lt hdle h60
  have hdpos : 0 < d := by
    rw [hq.2.2]
    exact hpos lb hq.1 hq.2.1.1 hq.2.1.2
  have hdec : botDecide mode selectedTeam px py ps shield bots foods b =
      Steer.avoidBot lb := by
    simp only [botDecide, if_neg hmode, hscan, steerAvoidBot]
    simp [hd60, hdpos]
  refine ⟨lb, d, hscan, hdec, ?_⟩
  intro f
  rw [hdec]
  simp

/-- The C3 test bot (size 10). -/
def c3bot : Blob := { id := "bot-a", x := 0, y := 0, size := 10 }

/-- A qualifying larger bot (size 20 > 12) at distance 30 from `c3bot`. -/
def c3bigNear : Blob := { id := "bot-b", x := 30, y := 0, size := 20 }

/-- A qualifying larger bot (size 20 > 12) exactly on top of `c3bot`
(distance 0). -/
def c3bigZero : Blob := { id := "bot-b", x := 0, y := 0, size := 20 }

/-- A food item at distance 10 from `c3bot`, within the 150 detection
range. -/
def c3food : Blob := { id := "food-a", x := 10, y := 0, size := 4 }

/-- Witness for C3 (amended): the size-10 bot with the size-20 bot at
distance 30 (within trigger 60) and food at distance 10 does not chase the
food. -/
theorem C3_avoid_over_food_amended_witness :
    botDecide GameMode.classic Team.red 900 1400 20 false
      [c3bot, c3bigNear] [c3food] c3bot ≠ Steer.chaseFood c3food := by
  have hex : ∃ ob ∈ [c3bot, c3bigNear],
      (ob.id ≠ c3bot.id ∧ ob.size > c3bot.size * 1.2) ∧
      dist2 c3bot.x c3bot.y ob.x ob.y < 60 ^ 2 := by
    refine ⟨c3bigNear, by simp, ⟨?_, ?_⟩, ?_⟩
    · decide
    · norm_num [c3bigNear, c3bot]
    · norm_num [dist2, c3bigNear, c3bot]
  have hpos : ∀ ob ∈ [c3bot, c3bigNear], ob.id ≠ c3bot.id →
      ob.size > c3bot.size * 1.2 → 0 < dist2 c3bot.x c3bot.y ob.x ob.y := by
    intro ob hob hne hsz
    rcases List.mem_cons.mp hob with rfl | hob'
    · exact absurd rfl hne
    · rcases List.mem_singleton.mp hob' with rfl
      norm_num [dist2, c3bigNear, c3bot]
  obtain ⟨lb, d, hscan, hdec, hnf⟩ := C3_avoid_over_food_amended GameMode.classic
    Team.red 900 1400 20 false [c3bot, c3bigNear] [c3food] c3bot
    (by decide) hex hpos
  exact hnf c3food

/-- C3 (counterexample to the claim as stated): the size-10 bot has a
qualifying avoid target — the size-20 bot at distance 0, within the 60
trigger range — and a qualifying chase-food target at distance 10, yet the
computed steering is the food chase: the avoid branch requires a strictly
positive distance (`if (distance > 0)`), falls through at distance 0, and the
cascade reaches the food stage. -/
theorem C3_zero_distance_counterexample :
    botDecide GameMode.classic Team.red 900 1400 20 false
        [c3bot, c3bigZero] [c3food] c3bot = Steer.chaseFood c3food ∧
    c3bigZero ∈ [c3bot, c3bigZero] ∧
    c3bigZero.id ≠ c3bot.id ∧
    c3bigZero.size > c3bot.size * 1.2 ∧
    dist2 c3bot.x c3bot.y c3bigZero.x c3bigZero.y < 60 ^ 2 ∧
    dist2 c3bot.x c3bot.y c3food.x c3food.y < 150 ^ 2 := by
  have hne : ("bot-b" : String) ≠ "bot-a" := by decide
  have hmode : GameMode.classic ≠ GameMode.team := by decide
  refine ⟨?_, by simp, by decide, by norm_num [c3bigZero, c3bot],
    by norm_num [dist2, c3bigZero, c3bot], by norm_num [dist2, c3food, c3bot]⟩
  norm_num [botDecide, scanNearest, scanBetter, steerAvoidBot, steerAvoidPlayer,
    steerSmall, steerFood, dist2, c3bot, c3bigZero, c3food, hne, hmode]
